import Mathlib

/-!
Shallow embedding of the GPNet ML service runtime decision pipeline
(`ml-service/app`): feature extraction (`features.py`), the policy engine and
guardrails (`policy.py`), the model registry (`uc_registry.py`), and the
endpoint probability decomposition (`main.py`).  Python floats are modelled
as rationals; Python dicts as association lists in insertion order.
-/

namespace GPNet

/-! ### Python values (`features.py` attribute mappings)

`np.array(..., dtype=float)` coerces booleans to 0.0/1.0 and numbers to
floats, and raises for `None`.  Numeric-string parsing is not modelled: no
schema-named field of any request contract carries a string, so `vStr`
values only ever occur under keys the extractor ignores. -/

inductive Value where
  | vBool (b : Bool)
  | vInt (n : Int)
  | vFloat (q : ℚ)
  | vStr (s : String)
  | vNone
deriving DecidableEq, Repr

/-- The coercion performed elementwise by `np.array(feature_values, dtype=float)`:
`none` means the conversion raises. -/
def Value.toFloat : Value → Option ℚ
  | .vBool b => some (if b then 1 else 0)
  | .vInt n => some (n : ℚ)
  | .vFloat q => some q
  | .vStr _ => none
  | .vNone => none

/-- Feature types of `feature_schema_v3.json` as read by `FeatureExtractor.__init__`. -/
inductive FType where
  | tBool
  | tInt
  | tFloat
  | tOther
deriving DecidableEq, Repr

/-- Default installed by `FeatureExtractor.extract`: `False` for `"bool"`,
`0` for `"int"`/`"float"`, and `0` for anything else. -/
def FType.defaultVal : FType → Value
  | .tBool => .vBool false
  | .tInt => .vInt 0
  | .tFloat => .vInt 0
  | .tOther => .vInt 0

/-- A feature schema: ordered `(name, type)` pairs. -/
def Schema := List (String × FType)

/-- The value a Python dict built by insertion holds at key `k` after the
update loop `for key, value in request_data.items(): ...` (last write wins). -/
def lookupLast (m : List (String × Value)) (k : String) : Option Value :=
  ((m.filter (fun p => p.1 == k)).getLast?).map Prod.snd

/-- `FeatureExtractor.extract`: initialize every schema feature to its
default, overwrite with any request entry whose key names a schema feature,
then convert the values to a float vector in schema order.  `none` models
the `np.array(..., dtype=float)` conversion raising. -/
def extract (schema : List (String × FType)) (m : List (String × Value)) :
    Option (List ℚ) :=
  let opts := schema.map (fun p => ((lookupLast m p.1).getD p.2.defaultVal).toFloat)
  if opts.all Option.isSome then some (opts.map (fun o => o.getD 0)) else none

/-! ### Guardrails (`policy.py::check_guardrails`, `config.py`) -/

def LEGAL_THREAT_KEYWORDS : List String :=
  ["lawyer", "attorney", "legal action", "solicitor",
   "defamation", "privacy complaint", "discrimination",
   "ombudsman", "tribunal", "sue", "lawsuit"]

/-- `needle` occurs as a prefix of `hay` (character lists). -/
def prefixAt : List Char → List Char → Bool
  | [], _ => true
  | _ :: _, [] => false
  | a :: as, b :: bs => a = b && prefixAt as bs

/-- Python `needle in hay` substring containment on character lists. -/
def containsSub (needle : List Char) : List Char → Bool
  | [] => prefixAt needle []
  | c :: t => prefixAt needle (c :: t) || containsSub needle t

/-- First legal-threat keyword contained in `text.lower()`
(`for keyword in LEGAL_THREAT_KEYWORDS: if keyword in text_lower`). -/
def firstThreat (t : String) : Option String :=
  LEGAL_THREAT_KEYWORDS.find? (fun kw => containsSub kw.toList (t.toList.map Char.toLower))

structure GuardrailResult where
  forceDecision : String
  reason : String
  recommendation : String
deriving DecidableEq, Repr

/-- Python `dict.get` on a string-valued fields dict. -/
def fieldsGet (f : List (String × String)) (k : String) : Option String :=
  ((f.filter (fun p => p.1 == k)).getLast?).map Prod.snd

/-- `policy.py::check_guardrails`: legal-threat scan on the (truthy) free
text, then the missing/empty `case_id` check on the (truthy) fields dict. -/
def checkGuardrails (text : Option String) (fields : Option (List (String × String))) :
    Option GuardrailResult :=
  let textHit : Option GuardrailResult :=
    match text with
    | some t =>
      if t.length ≠ 0 then
        (firstThreat t).map (fun kw =>
          ⟨"Hold/Manual", "guardrail:legal_threat:" ++ kw,
           "Legal threat detected - requires immediate manual review"⟩)
      else none
    | none => none
  match textHit with
  | some r => some r
  | none =>
    match fields with
    | some f =>
      if f.isEmpty then none
      else
        match fieldsGet f "case_id" with
        | some v => if v.length = 0 then
            some ⟨"Hold/Manual", "guardrail:missing_case_id",
                  "Missing case ID - cannot process"⟩
          else none
        | none =>
            some ⟨"Hold/Manual", "guardrail:missing_case_id",
                  "Missing case ID - cannot process"⟩
    | none => none

/-! ### Thresholds (`config.py`) -/

def UC1_HIGH_THRESHOLD : ℚ := 0.75
def UC1_MEDIUM_THRESHOLD : ℚ := 0.40
def UC7_QUARANTINE_THRESHOLD : ℚ := 0.80
def UC11_WORK_THRESHOLD : ℚ := 0.75
def UC11_UNCLEAR_LOW : ℚ := 0.40
def UC11_UNCLEAR_HIGH : ℚ := 0.74

/-! ### Policy engine (`policy.py`) -/

/-- Python `int()` applied to a float: truncation toward zero. -/
def pyInt (q : ℚ) : ℤ := if 0 ≤ q then ⌊q⌋ else ⌈q⌉

structure UC1Probs where
  high : ℚ
  medium : ℚ
  low : ℚ
deriving DecidableEq, Repr

/-- `policy.py::uc1_policy`. -/
def uc1Policy (p : UC1Probs) : String × ℤ × String :=
  if p.high ≥ UC1_HIGH_THRESHOLD then
    ("red", pyInt (p.high * 100), "Review today; high priority case")
  else if p.medium ≥ UC1_MEDIUM_THRESHOLD then
    ("yellow", pyInt (p.medium * 100), "Review this week; medium priority")
  else
    ("green", pyInt (p.low * 100), "Routine monitoring; low priority")

/-- `policy.py::uc7_policy` on the fraudulent-class probability. -/
def uc7Policy (pFraudulent : ℚ) : Bool × String × String :=
  if pFraudulent ≥ UC7_QUARANTINE_THRESHOLD then
    (true, "Fraudulent", "Quarantine document; request verified re-upload")
  else
    (false, "Legitimate", "Document appears legitimate")

/-- `policy.py::uc11_policy` on the work-related probability (band only;
the paired recommendation strings are elided). -/
def uc11Policy (workRelated : ℚ) : String :=
  if workRelated ≥ UC11_WORK_THRESHOLD then "Work-Related"
  else if UC11_UNCLEAR_LOW ≤ workRelated ∧ workRelated ≤ UC11_UNCLEAR_HIGH then "Unclear"
  else "Non-Work"

/-! ### Probability decomposition in the endpoints (`main.py`) -/

/-- `main.py::score_case_priority` lines 60-62: split the negative-class mass
0.6/0.4 into medium/low.  Returns (high, medium, low). -/
def decomposeUC1 (pNeg pPos : ℚ) : ℚ × ℚ × ℚ :=
  (pPos, pNeg * 0.6, pNeg * 0.4)

/-- `main.py::score_compliance` lines 146-151: split the compliant mass
0.3/0.7 into medium/low risk.  Returns (high, medium, low). -/
def decomposeUC12 (pNeg pPos : ℚ) : ℚ × ℚ × ℚ :=
  (pPos, pNeg * 0.3, pNeg * 0.7)

/-- `main.py::score_claim_escalation` lines 201-206: split the stable mass
0.4/0.6 into medium/low risk.  Returns (high, medium, low). -/
def decomposeUC13 (pNeg pPos : ℚ) : ℚ × ℚ × ℚ :=
  (pPos, pNeg * 0.4, pNeg * 0.6)

/-! ### Model registry (`uc_registry.py`) -/

/-- `uc_registry.py::validate_features`: the only structural check before
inference is the length comparison against the trained feature order. -/
def validateFeatures (featureOrder : List String) (featureArray : List ℚ) :
    Except String Unit :=
  if featureArray.length ≠ featureOrder.length then
    Except.error "Feature count mismatch"
  else
    Except.ok ()

/-- `uc_registry.py::predict` for a loaded bundle, with the calibrator and
explainer abstracted as functions on the feature vector: validate, then
obtain calibrated probabilities and SHAP values for the same row. -/
def predict (featureOrder : List String) (calibrator explainer : List ℚ → List ℚ)
    (features : List ℚ) : Except String (List ℚ × List ℚ) :=
  match validateFeatures featureOrder features with
  | Except.error e => Except.error e
  | Except.ok _ => Except.ok (calibrator features, explainer features)

/-- Which of the artifact files exist on disk for one use-case directory. -/
structure FS where
  dirExists : Bool
  modelExists : Bool
  calibratorExists : Bool
  explainerExists : Bool
  featureOrderExists : Bool
deriving DecidableEq, Repr

/-- The registry's per-use-case cached state: whether each artifact dict
holds an entry for the use-case, and whether it is in `_loaded_ucs`. -/
structure RegState where
  models : Bool
  calibrators : Bool
  explainers : Bool
  featureOrders : Bool
  loadedUC : Bool
deriving DecidableEq, Repr

def emptyRegState : RegState := ⟨false, false, false, false, false⟩

/-- `uc_registry.py::_load_uc` as a state transformer: each artifact's
existence is checked just before it is read, and a missing artifact raises
(`some` error) with all previously read artifacts already cached.
`_loaded_ucs` is only extended after all four artifacts loaded. -/
def loadUC (fs : FS) (s : RegState) : RegState × Option String :=
  if s.loadedUC then (s, none)
  else if !fs.dirExists then (s, some "Model directory not found")
  else if !fs.modelExists then (s, some "Model not found")
  else
    let s1 := { s with models := true }
    if !fs.calibratorExists then (s1, some "Calibrator not found")
    else
      let s2 := { s1 with calibrators := true }
      if !fs.explainerExists then (s2, some "SHAP explainer not found")
      else
        let s3 := { s2 with explainers := true }
        if !fs.featureOrderExists then (s3, some "Feature order not found")
        else ({ s3 with featureOrders := true, loadedUC := true }, none)

/-- `uc_registry.py::is_loaded`. -/
def isLoadedUC (s : RegState) : Bool := s.loadedUC

/-- All four artifacts (and the directory) are present. -/
def FS.complete (fs : FS) : Prop :=
  fs.dirExists = true ∧ fs.modelExists = true ∧ fs.calibratorExists = true ∧
    fs.explainerExists = true ∧ fs.featureOrderExists = true

/-! ### Attribution ranking (`uc_registry.py::get_top_shap_features`)

The source ranks with `np.argsort(np.abs(shap_vals))[::-1][:top_k]`.
`np.argsort` is modelled as the stable ascending argsort: indices ordered by
`(absolute value, index)` lexicographically. -/

/-- `np.abs` on one value. -/
def ratAbs (q : ℚ) : ℚ := if q < 0 then -q else q

def absKey (xs : List ℚ) (i : ℕ) : ℚ := ratAbs (xs.getD i 0)

/-- Comparison used by the stable ascending argsort of `np.abs(shap_vals)`. -/
def shapLe (xs : List ℚ) (i j : ℕ) : Prop :=
  absKey xs i < absKey xs j ∨ (absKey xs i = absKey xs j ∧ i ≤ j)

instance (xs : List ℚ) : DecidableRel (shapLe xs) := fun i j => by
  unfold shapLe
  infer_instance

instance (xs : List ℚ) : IsTotal ℕ (shapLe xs) where
  total i j := by
    unfold shapLe
    rcases lt_trichotomy (absKey xs i) (absKey xs j) with h | h | h
    · exact Or.inl (Or.inl h)
    · rcases le_total i j with hij | hij
      · exact Or.inl (Or.inr ⟨h, hij⟩)
      · exact Or.inr (Or.inr ⟨h.symm, hij⟩)
    · exact Or.inr (Or.inl h)

instance (xs : List ℚ) : IsTrans ℕ (shapLe xs) where
  trans i j k := by
    unfold shapLe
    rintro (h1 | ⟨h1, h1'⟩) (h2 | ⟨h2, h2'⟩)
    · exact Or.inl (h1.trans h2)
    · exact Or.inl (h2 ▸ h1)
    · exact Or.inl (h1 ▸ h2)
    · exact Or.inr ⟨h1.trans h2, h1'.trans h2'⟩

/-- `np.argsort(np.abs(xs))`: stable ascending argsort of absolute values. -/
def argsortAbs (xs : List ℚ) : List ℕ :=
  List.insertionSort (shapLe xs) (List.range xs.length)

/-- `np.argsort(np.abs(xs))[::-1]`: the full descending ranking. -/
def fullRanking (xs : List ℚ) : List ℕ := (argsortAbs xs).reverse

/-- `np.argsort(np.abs(xs))[::-1][:top_k]`: the ranked index list returned
by `get_top_shap_features` (each index is then emitted as a
feature/value/contribution record in this order). -/
def topIndices (xs : List ℚ) (k : ℕ) : List ℕ := (fullRanking xs).take k

/-- The strict ordering the code actually produces on the ranked indices:
descending absolute contribution, ties broken by descending original index. -/
def shapGt (xs : List ℚ) (i j : ℕ) : Prop :=
  |xs.getD j 0| < |xs.getD i 0| ∨ (|xs.getD i 0| = |xs.getD j 0| ∧ j < i)

/-! ### Fraud endpoint (`main.py::score_fraud`)

The pipeline actually wired in the endpoint: extract features, predict
(abstracted here as a probability function of the feature vector), apply
`uc7_policy`.  `check_guardrails` is never invoked by any endpoint.
SHAP reporting is elided.  `none` models the 500 error path. -/

structure FraudDocResponse where
  decision : String
  quarantine : Bool
  recommendation : String
deriving DecidableEq, Repr

def scoreFraud (schema : List (String × FType)) (predictProbs : List ℚ → ℚ × ℚ)
    (req : List (String × Value)) : Option FraudDocResponse :=
  (extract schema req).map (fun feats =>
    let pr := predictProbs feats
    let dec := uc7Policy pr.2
    ⟨dec.2.1, dec.1, dec.2.2⟩)

/-! ## Helper lemmas -/

theorem ratAbs_eq_abs (q : ℚ) : ratAbs q = |q| := by
  unfold ratAbs
  rcases lt_or_le q 0 with h | h
  · rw [if_pos h, abs_of_neg h]
  · rw [if_neg (not_lt.mpr h), abs_of_nonneg h]

theorem absKey_eq_abs (xs : List ℚ) (i : ℕ) : absKey xs i = |xs.getD i 0| := by
  unfold absKey
  exact ratAbs_eq_abs _

/-! ## Claim theorems -/

/-- C8 counterexample: the claim says the Non-Work band is returned exactly
when the work-related probability is below 0.40, but `uc11_policy` also
returns Non-Work for 0.745, which lies in the gap between the inclusive
unclear upper bound 0.74 and the high threshold 0.75. -/
theorem uc11_gap_counterexample :
    uc11Policy 0.745 = "Non-Work" ∧ ¬ ((0.745 : ℚ) < 0.40) := by
  constructor
  · norm_num [uc11Policy, UC11_WORK_THRESHOLD, UC11_UNCLEAR_LOW, UC11_UNCLEAR_HIGH]
  · norm_num

/-- C8 (amended): `uc11_policy` returns Work-Related iff p ≥ 0.75, Unclear
iff p ∈ [0.40, 0.74], and Non-Work iff p < 0.40 or 0.74 < p < 0.75; the
three bands are exhaustive and mutually exclusive, but the low band also
covers the gap (0.74, 0.75), not just p < 0.40. -/
theorem uc11Policy_bands (p : ℚ) :
    (uc11Policy p = "Work-Related" ↔ (0.75 : ℚ) ≤ p) ∧
    (uc11Policy p = "Unclear" ↔ (0.40 : ℚ) ≤ p ∧ p ≤ (0.74 : ℚ)) ∧
    (uc11Policy p = "Non-Work" ↔ (p < (0.40 : ℚ) ∨ ((0.74 : ℚ) < p ∧ p < (0.75 : ℚ)))) := by
  unfold uc11Policy UC11_WORK_THRESHOLD UC11_UNCLEAR_LOW UC11_UNCLEAR_HIGH
  split_ifs with h1 h2
  · refine ⟨iff_of_true rfl h1, ?_, ?_⟩
    · simp only [show ("Work-Related" = "Unclear") = False by simp, false_iff]
      intro hc
      linarith [hc.2, ge_iff_le.mp h1]
    · simp only [show ("Work-Related" = "Non-Work") = False by simp, false_iff]
      rintro (hc | hc) <;> linarith [ge_iff_le.mp h1]
  · refine ⟨?_, iff_of_true rfl h2, ?_⟩
    · simp only [show ("Unclear" = "Work-Related") = False by simp, false_iff]
      intro hc
      exact h1 hc
    · simp only [show ("Unclear" = "Non-Work") = False by simp, false_iff]
      rintro (hc | hc) <;> linarith [h2.1, h2.2]
  · push_neg at h2
    refine ⟨?_, ?_, ?_⟩
    · simp only [show ("Non-Work" = "Work-Related") = False by simp, false_iff]
      intro hc
      exact h1 hc
    · simp only [show ("Non-Work" = "Unclear") = False by simp, false_iff]
      rintro ⟨ha, hb⟩
      linarith [h2 ha]
    · simp only [true_iff]
      rcases lt_or_le p 0.40 with h | h
      · exact Or.inl h
      · exact Or.inr ⟨h2 h, not_le.mp h1⟩

/-- C3 counterexample: for the probability mapping with high = 0.756 the
claim demands score = round(75.6) = 76, but `uc1_policy` computes
`int(0.756 * 100)` = 75 (Python `int()` truncates). -/
theorem uc1_score_truncation_counterexample :
    (uc1Policy ⟨0.756, 0.1464, 0.0976⟩).1 = "red" ∧
    (uc1Policy ⟨0.756, 0.1464, 0.0976⟩).2.1 = 75 ∧
    round ((0.756 : ℚ) * 100) = 76 ∧ (75 : ℤ) ≠ 76 := by
  refine ⟨?_, ?_, ?_, by decide⟩
  · norm_num [uc1Policy, UC1_HIGH_THRESHOLD]
  · norm_num [uc1Policy, UC1_HIGH_THRESHOLD, pyInt]
  · norm_num [round_eq]

/-- C3 (amended): `uc1_policy` returns red iff the high probability is
≥ 0.75 (inclusive at exactly 0.75), otherwise yellow iff the medium
probability is ≥ 0.40, otherwise green; the numeric score is the Python
`int()` truncation of (matched-band probability × 100), not its rounding. -/
theorem uc1Policy_band_and_score (p : UC1Probs) :
    ((uc1Policy p).1 = "red" ↔ (0.75 : ℚ) ≤ p.high) ∧
    ((uc1Policy p).1 = "yellow" ↔ p.high < (0.75 : ℚ) ∧ (0.40 : ℚ) ≤ p.medium) ∧
    ((uc1Policy p).1 = "green" ↔ p.high < (0.75 : ℚ) ∧ p.medium < (0.40 : ℚ)) ∧
    ((0.75 : ℚ) ≤ p.high → (uc1Policy p).2.1 = pyInt (p.high * 100)) ∧
    (p.high < (0.75 : ℚ) → (0.40 : ℚ) ≤ p.medium →
      (uc1Policy p).2.1 = pyInt (p.medium * 100)) ∧
    (p.high < (0.75 : ℚ) → p.medium < (0.40 : ℚ) →
      (uc1Policy p).2.1 = pyInt (p.low * 100)) := by
  unfold uc1Policy UC1_HIGH_THRESHOLD UC1_MEDIUM_THRESHOLD
  split_ifs with h1 h2
  · rw [ge_iff_le] at h1
    refine ⟨by simp [h1], ?_, ?_, fun _ => rfl, ?_, ?_⟩
    · simp only [show ("red" = "yellow") = False by simp, false_iff]
      rintro ⟨hc, _⟩
      linarith
    · simp only [show ("red" = "green") = False by simp, false_iff]
      rintro ⟨hc, _⟩
      linarith
    · intro hc _
      linarith
    · intro hc _
      linarith
  · rw [ge_iff_le, not_le] at h1
    rw [ge_iff_le] at h2
    refine ⟨?_, by simp [h1, h2], ?_, ?_, fun _ _ => rfl, ?_⟩
    · simp only [show ("yellow" = "red") = False by simp, false_iff]
      intro hc
      linarith
    · simp only [show ("yellow" = "green") = False by simp, false_iff]
      rintro ⟨_, hc⟩
      linarith
    · intro hc
      linarith
    · intro _ hc
      linarith
  · rw [ge_iff_le, not_le] at h1
    rw [ge_iff_le, not_le] at h2
    refine ⟨?_, ?_, by simp [h1, h2], ?_, ?_, fun _ _ => rfl⟩
    · simp only [show ("green" = "red") = False by simp, false_iff]
      intro hc
      linarith
    · simp only [show ("green" = "yellow") = False by simp, false_iff]
      rintro ⟨_, hc⟩
      linarith
    · intro hc
      linarith
    · intro _ hc
      linarith

/-- C3 witness: at high = 0.75 exactly, the band is red and the score is 75. -/
theorem uc1Policy_band_and_score_witness :
    (uc1Policy ⟨0.75, 0.15, 0.1⟩).1 = "red" ∧ (uc1Policy ⟨0.75, 0.15, 0.1⟩).2.1 = 75 := by
  refine ⟨((uc1Policy_band_and_score ⟨0.75, 0.15, 0.1⟩).1).mpr (by norm_num), ?_⟩
  rw [(uc1Policy_band_and_score ⟨0.75, 0.15, 0.1⟩).2.2.2.1 (by norm_num)]
  norm_num [pyInt]

/-- C7: in each of the three endpoints that split the negative-class mass
into sub-bands (case priority 0.6/0.4, compliance 0.3/0.7, claim
escalation 0.4/0.6), if the binary calibrated probabilities sum to 1 then
the three emitted probabilities sum to 1 exactly. -/
theorem decompose_probability_conservation (pNeg pPos : ℚ) (h : pNeg + pPos = 1) :
    (decomposeUC1 pNeg pPos).1 + (decomposeUC1 pNeg pPos).2.1 + (decomposeUC1 pNeg pPos).2.2 = 1 ∧
    (decomposeUC12 pNeg pPos).1 + (decomposeUC12 pNeg pPos).2.1 + (decomposeUC12 pNeg pPos).2.2 = 1 ∧
    (decomposeUC13 pNeg pPos).1 + (decomposeUC13 pNeg pPos).2.1 + (decomposeUC13 pNeg pPos).2.2 = 1 := by
  unfold decomposeUC1 decomposeUC12 decomposeUC13
  refine ⟨?_, ?_, ?_⟩ <;> · simp only
                            ring_nf
                            linarith

/-- C7 witness: the conservation theorem applied at (0.5, 0.5). -/
theorem decompose_probability_conservation_witness :
    (decomposeUC1 0.5 0.5).1 + (decomposeUC1 0.5 0.5).2.1 + (decomposeUC1 0.5 0.5).2.2 = 1 :=
  (decompose_probability_conservation 0.5 0.5 (by norm_num)).1

/-- C5: `predict` (via `validate_features`) fails with the feature-count
mismatch error exactly when the vector length differs from the trained
feature order length; on matching lengths it hands the untouched vector to
the calibrator and explainer (no truncation or padding), and the length
comparison is the only structural validation: equal lengths always reach
inference. -/
theorem predict_length_validation (featureOrder : List String)
    (calibrator explainer : List ℚ → List ℚ) (features : List ℚ) :
    ((∃ e, predict featureOrder calibrator explainer features = Except.error e) ↔
      features.length ≠ featureOrder.length) ∧
    (features.length = featureOrder.length →
      predict featureOrder calibrator explainer features =
        Except.ok (calibrator features, explainer features)) ∧
    ((∃ e, validateFeatures featureOrder features = Except.error e) ↔
      features.length ≠ featureOrder.length) := by
  unfold predict validateFeatures
  split_ifs with h
  · simp [h]
  · simp [h]

/-- C5 witness: a 2-element vector against a 2-name feature order reaches
inference with the vector intact. -/
theorem predict_length_validation_witness :
    predict ["days_open", "sla_breaches"] id id [3, 0] = Except.ok ([3, 0], [3, 0]) :=
  (predict_length_validation ["days_open", "sla_breaches"] id id [3, 0]).2.1 rfl

/-- C6 counterexample: with the model artifact present but the calibrator
absent, `_load_uc` raises, yet the registry state is not left unchanged by
the failed attempt — the model artifact is already cached. -/
theorem loadUC_partial_cache_counterexample :
    (loadUC ⟨true, true, false, true, true⟩ emptyRegState).2 ≠ none ∧
    (loadUC ⟨true, true, false, true, true⟩ emptyRegState).1 ≠ emptyRegState := by
  decide

/-- C6 (amended): when the use-case is not yet loaded, `_load_uc` succeeds
iff the directory and all four artifacts are present; on failure `is_loaded`
stays false and the failure is not cached as permanent — a later call with a
complete artifact set loads successfully — but artifacts read before the
missing one remain cached, so the failed attempt can leave the registry
state changed. -/
theorem loadUC_retry_behavior (fs fs2 : FS) (s : RegState) (h : s.loadedUC = false) :
    ((loadUC fs s).2 = none ↔ fs.complete) ∧
    ((loadUC fs s).2 ≠ none → isLoadedUC (loadUC fs s).1 = false) ∧
    (fs.complete → isLoadedUC (loadUC fs s).1 = true) ∧
    (fs2.complete →
      (loadUC fs2 (loadUC fs s).1).2 = none ∧
        isLoadedUC (loadUC fs2 (loadUC fs s).1).1 = true) := by
  have key : ∀ (fs' : FS) (s' : RegState), s'.loadedUC = false →
      (((loadUC fs' s').2 = none ↔ fs'.complete) ∧
        ((loadUC fs' s').1.loadedUC = true ↔ fs'.complete)) := by
    intro fs' s' h'
    unfold loadUC FS.complete
    rw [h']
    obtain ⟨d, m, c, e, f⟩ := fs'
    cases d <;> cases m <;> cases c <;> cases e <;> cases f <;> simp [h']
  have loadedEq : ∀ (fs' : FS) (s' : RegState), s'.loadedUC = true →
      loadUC fs' s' = (s', none) := by
    intro fs' s' h'
    unfold loadUC
    rw [h']
    rfl
  obtain ⟨k1, k2⟩ := key fs s h
  refine ⟨k1, ?_, ?_, ?_⟩
  · intro he
    have : ¬ fs.complete := fun hc => he (k1.mpr hc)
    unfold isLoadedUC
    exact Bool.not_eq_true _ ▸ (fun ht => this (k2.mp ht))
  · intro hc
    exact k2.mpr hc
  · intro hc2
    rcases Bool.eq_false_or_eq_true (loadUC fs s).1.loadedUC with hl | hl
    · rw [loadedEq fs2 (loadUC fs s).1 hl]
      exact ⟨rfl, hl⟩
    · obtain ⟨j1, j2⟩ := key fs2 (loadUC fs s).1 hl
      exact ⟨j1.mpr hc2, j2.mpr hc2⟩

/-- C6 witness: a first failed attempt (calibrator missing) followed by a
retry against a complete artifact set loads the use-case. -/
theorem loadUC_retry_behavior_witness :
    (loadUC ⟨true, true, false, true, true⟩ emptyRegState).2 ≠ none ∧
    isLoadedUC (loadUC ⟨true, true, false, true, true⟩ emptyRegState).1 = false ∧
    (loadUC ⟨true, true, true, true, true⟩
      (loadUC ⟨true, true, false, true, true⟩ emptyRegState).1).2 = none := by
  have h := loadUC_retry_behavior ⟨true, true, false, true, true⟩
    ⟨true, true, true, true, true⟩ emptyRegState rfl
  refine ⟨?_, h.2.1 ?_, (h.2.2.2 ⟨rfl, rfl, rfl, rfl, rfl⟩).1⟩
  · intro hc
    exact absurd (h.1.mp hc).2.2.1 (by simp)
  · intro hc
    exact absurd (h.1.mp hc).2.2.1 (by simp)

/-- C2 counterexample: on the tied attribution values [0.5, 0.5] with
top_k = 2, the claim (stable sort: ties broken by original feature order)
demands [first feature, second feature], but `np.argsort(...)[::-1]`
reverses a stable ascending argsort, so the code returns the second feature
first. -/
theorem topIndices_tie_counterexample :
    topIndices [0.5, 0.5] 2 = [1, 0] ∧ topIndices [0.5, 0.5] 2 ≠ [0, 1] := by
  have h : topIndices [0.5, 0.5] 2 = [1, 0] := by
    norm_num [topIndices, fullRanking, argsortAbs, List.insertionSort, List.orderedInsert,
      shapLe, absKey, ratAbs, List.range, List.range.loop]
  refine ⟨h, ?_⟩
  rw [h]
  decide

/-- C2 (amended): `get_top_shap_features` ranks every feature index exactly
once, ordered by descending absolute contribution with ties between equal
absolute contributions broken by descending (not original/ascending)
feature order, and returns the first top_k entries of that ranking; for the
attribution values [0.1, -0.5, 0.3] and top_k = 2 it returns the second
feature then the third feature. -/
theorem topIndices_ranking (xs : List ℚ) (k : ℕ) :
    (fullRanking xs).Pairwise (shapGt xs) ∧
    (fullRanking xs).Perm (List.range xs.length) ∧
    topIndices xs k ++ (fullRanking xs).drop k = fullRanking xs ∧
    (topIndices xs k).length = min k xs.length ∧
    topIndices [0.1, -0.5, 0.3] 2 = [1, 2] := by
  have hperm : (argsortAbs xs).Perm (List.range xs.length) :=
    List.perm_insertionSort _ _
  have hpermRev : (fullRanking xs).Perm (List.range xs.length) :=
    (List.reverse_perm _).trans hperm
  have hnodup : (fullRanking xs).Nodup :=
    hpermRev.nodup_iff.mpr (List.nodup_range _)
  have hsorted : (argsortAbs xs).Pairwise (shapLe xs) :=
    List.sorted_insertionSort _ _
  have hrev : (fullRanking xs).Pairwise (fun a b => shapLe xs b a) :=
    (List.pairwise_reverse).mpr hsorted
  have hGt : (fullRanking xs).Pairwise (shapGt xs) := by
    refine hrev.imp₂ (fun a b hle hne => ?_) hnodup
    unfold shapLe at hle
    rw [absKey_eq_abs, absKey_eq_abs] at hle
    unfold shapGt
    rcases hle with h | ⟨h, hba⟩
    · exact Or.inl h
    · exact Or.inr ⟨h.symm, lt_of_le_of_ne hba (Ne.symm hne)⟩
  have hlen : (fullRanking xs).length = xs.length := by
    simp [fullRanking, argsortAbs, List.length_insertionSort]
  refine ⟨hGt, hpermRev, List.take_append_drop k _, ?_, ?_⟩
  · rw [topIndices, List.length_take, hlen]
  · norm_num [topIndices, fullRanking, argsortAbs, List.insertionSort, List.orderedInsert,
      shapLe, absKey, ratAbs, List.range, List.range.loop]

/-! ### Feature extractor lemmas -/

theorem defaultVal_toFloat (t : FType) : t.defaultVal.toFloat = some 0 := by
  cases t <;> rfl

theorem lookupLast_eq_some {m : List (String × Value)} {k : String} {val : Value}
    (h : lookupLast m k = some val) : ∃ x ∈ m, x.1 = k ∧ x.2 = val := by
  unfold lookupLast at h
  cases hl : (m.filter (fun p => p.1 == k)).getLast? with
  | none => rw [hl] at h; simp at h
  | some x =>
    rw [hl] at h
    have hval : x.2 = val := by simpa using h
    have hxmem : x ∈ m.filter (fun p => p.1 == k) := by
      obtain ⟨hne, hx⟩ := List.mem_getLast?_eq_getLast (show x ∈ _ from hl)
      rw [hx]
      exact List.getLast_mem hne
    have hm := List.mem_filter.mp hxmem
    exact ⟨x, hm.1, by simpa using hm.2, hval⟩

theorem extract_eq_of_coercible (schema : List (String × FType)) (m : List (String × Value))
    (hco : ∀ p ∈ m, p.1 ∈ schema.map Prod.fst → (Value.toFloat p.2).isSome = true) :
    extract schema m =
      some (schema.map fun p => (((lookupLast m p.1).getD p.2.defaultVal).toFloat).getD 0) := by
  have hall : (schema.map fun p => ((lookupLast m p.1).getD p.2.defaultVal).toFloat).all
      Option.isSome = true := by
    rw [List.all_eq_true]
    intro o ho
    obtain ⟨p, hp, rfl⟩ := List.mem_map.mp ho
    cases hl : lookupLast m p.1 with
    | none => simp [defaultVal_toFloat]
    | some val =>
      obtain ⟨x, hx, hk, hv⟩ := lookupLast_eq_some hl
      have hmem : p.1 ∈ schema.map Prod.fst := List.mem_map_of_mem Prod.fst hp
      have := hco x hx (hk ▸ hmem)
      rw [hv] at this
      simpa using this
  unfold extract
  simp only [hall, if_true, List.map_map]
  rfl

theorem extract_congr_lookup (schema : List (String × FType))
    {m₁ m₂ : List (String × Value)}
    (h : ∀ p ∈ schema, lookupLast m₁ p.1 = lookupLast m₂ p.1) :
    extract schema m₁ = extract schema m₂ := by
  unfold extract
  have heq : (schema.map fun p => ((lookupLast m₁ p.1).getD p.2.defaultVal).toFloat) =
      (schema.map fun p => ((lookupLast m₂ p.1).getD p.2.defaultVal).toFloat) :=
    List.map_congr_left (fun p hp => by rw [h p hp])
  simp only [heq]

theorem filter_key_length_le_one {m : List (String × Value)}
    (hnd : (m.map Prod.fst).Nodup) (k : String) :
    (m.filter (fun p => p.1 == k)).length ≤ 1 := by
  induction m with
  | nil => simp
  | cons a t ih =>
    rw [List.map_cons, List.nodup_cons] at hnd
    by_cases ha : (a.1 == k) = true
    · rw [List.filter_cons, if_pos ha]
      have hnil : t.filter (fun p => p.1 == k) = [] := by
        rw [List.filter_eq_nil_iff]
        intro x hx
        have hxk : x.1 ≠ k := by
          intro he
          exact hnd.1 (by
            rw [beq_iff_eq] at ha
            rw [ha, ← he]
            exact List.mem_map_of_mem Prod.fst hx)
        simpa using hxk
      simp [hnil]
    · rw [List.filter_cons, if_neg ha]
      exact ih hnd.2

theorem lookupLast_perm_eq {m₁ m₂ : List (String × Value)}
    (hnd₁ : (m₁.map Prod.fst).Nodup) (hperm : m₁.Perm m₂) (k : String) :
    lookupLast m₁ k = lookupLast m₂ k := by
  have hfil := hperm.filter (fun p => p.1 == k)
  have h1 := filter_key_length_le_one hnd₁ k
  unfold lookupLast
  cases hc : m₁.filter (fun p => p.1 == k) with
  | nil =>
    rw [hc] at hfil
    rw [← hfil.symm.eq_nil]
  | cons x t =>
    rw [hc] at hfil h1
    cases t with
    | cons y t2 => simp at h1
    | nil =>
      rw [List.perm_singleton.mp hfil.symm]

/-! ### More claim theorems -/

/-- C4: for every attribute mapping whose values under schema-feature keys
are float-coercible, `extract` returns a vector of length equal to the
schema, in schema order, holding the coerced mapping value where the key is
present (booleans as 0.0/1.0) and 0 — the coerced schema default (false /
0) — otherwise; keys not naming a schema feature are ignored without
error, and the empty mapping extracts to exactly the default vector. -/
theorem extract_shape_defaults (schema : List (String × FType)) (m : List (String × Value))
    (hco : ∀ p ∈ m, p.1 ∈ schema.map Prod.fst → (Value.toFloat p.2).isSome = true) :
    (∃ v, extract schema m = some v ∧ v.length = schema.length ∧
      ∀ (i : ℕ) (name : String) (ft : FType), schema[i]? = some (name, ft) →
        (∀ val, lookupLast m name = some val → v[i]? = some ((Value.toFloat val).getD 0)) ∧
        (lookupLast m name = none → v[i]? = some 0)) ∧
    (∀ k val, k ∉ schema.map Prod.fst → extract schema (m ++ [(k, val)]) = extract schema m) ∧
    extract schema [] = some (List.replicate schema.length 0) ∧
    (∀ b, Value.toFloat (Value.vBool b) = some (if b then 1 else 0)) := by
  refine ⟨⟨_, extract_eq_of_coercible schema m hco, List.length_map _ _, ?_⟩, ?_, ?_,
    fun b => rfl⟩
  · intro i name ft hi
    constructor
    · intro val hval
      rw [List.getElem?_map, hi]
      simp [hval]
    · intro hnone
      rw [List.getElem?_map, hi]
      simp [hnone, defaultVal_toFloat]
  · intro k val hk
    apply extract_congr_lookup
    intro p hp
    unfold lookupLast
    rw [List.filter_append]
    have hnil : ([(k, val)].filter (fun q => q.1 == p.1)) = [] := by
      have hne : k ≠ p.1 := fun he => hk (he ▸ List.mem_map_of_mem Prod.fst hp)
      rw [List.filter_cons, if_neg (by simpa using hne)]
      rfl
    rw [hnil, List.append_nil]
  · rw [extract_eq_of_coercible schema [] (by intro p hp; cases hp)]
    congr 1
    rw [List.eq_replicate_iff]
    refine ⟨List.length_map _ _, ?_⟩
    intro x hx
    obtain ⟨p, _, rfl⟩ := List.mem_map.mp hx
    have : lookupLast [] p.1 = none := rfl
    rw [this]
    simp [defaultVal_toFloat]

/-- C4 witness: extracting a boolean attribute plus an ignored non-schema
key from a two-feature schema yields a length-2 vector. -/
theorem extract_shape_defaults_witness :
    ∃ v, extract [("days_open", FType.tFloat), ("incident_logged", FType.tBool)]
        [("incident_logged", Value.vBool true), ("case_id", Value.vStr "C1")] = some v ∧
      v.length = 2 := by
  obtain ⟨⟨v, hv, hlen, _⟩, _, _, _⟩ :=
    extract_shape_defaults [("days_open", FType.tFloat), ("incident_logged", FType.tBool)]
      [("incident_logged", Value.vBool true), ("case_id", Value.vStr "C1")]
      (by decide)
  exact ⟨v, hv, hlen⟩

/-- C9 counterexample: the claim says `extract` never fails for values of
any type, but a Python `None` under a schema-feature key makes
`np.array(..., dtype=float)` raise: the extraction produces no vector. -/
theorem extract_none_counterexample :
    extract [("days_open", FType.tFloat)] [("days_open", Value.vNone)] = none := rfl

/-- C9 (amended): `extract` is total on attribute mappings whose values
under schema-feature keys are float-coercible (it fails on non-coercible
values such as None), and it is order-independent: two duplicate-key-free
mappings containing the same key-value pairs extract to equal vectors. -/
theorem extract_total_and_order_independent (schema : List (String × FType))
    (m₁ m₂ : List (String × Value))
    (hco : ∀ p ∈ m₁, p.1 ∈ schema.map Prod.fst → (Value.toFloat p.2).isSome = true)
    (hnd₁ : (m₁.map Prod.fst).Nodup) (hnd₂ : (m₂.map Prod.fst).Nodup)
    (hmem : ∀ p : String × Value, p ∈ m₁ ↔ p ∈ m₂) :
    (extract schema m₁).isSome = true ∧ extract schema m₁ = extract schema m₂ := by
  have hperm : m₁.Perm m₂ :=
    (List.perm_ext_iff_of_nodup (List.Nodup.of_map Prod.fst hnd₁)
      (List.Nodup.of_map Prod.fst hnd₂)).mpr hmem
  refine ⟨?_, extract_congr_lookup schema
    (fun p _ => lookupLast_perm_eq hnd₁ hperm p.1)⟩
  rw [extract_eq_of_coercible schema m₁ hco]
  rfl

/-- C9 witness: two orderings of the same attribute mapping extract to the
same vector, and extraction succeeds. -/
theorem extract_total_and_order_independent_witness :
    (extract [("days_open", FType.tFloat), ("incident_logged", FType.tBool)]
        [("days_open", Value.vInt 3), ("incident_logged", Value.vBool true)]).isSome = true ∧
    extract [("days_open", FType.tFloat), ("incident_logged", FType.tBool)]
        [("days_open", Value.vInt 3), ("incident_logged", Value.vBool true)] =
      extract [("days_open", FType.tFloat), ("incident_logged", FType.tBool)]
        [("incident_logged", Value.vBool true), ("days_open", Value.vInt 3)] :=
  extract_total_and_order_independent
    [("days_open", FType.tFloat), ("incident_logged", FType.tBool)]
    [("days_open", Value.vInt 3), ("incident_logged", Value.vBool true)]
    [("incident_logged", Value.vBool true), ("days_open", Value.vInt 3)]
    (by decide) (by decide) (by decide)
    (by intro p; simp only [List.mem_cons, List.not_mem_nil, or_false]; tauto)

/-- C1: a fraud-endpoint request whose free text contains the legal-threat
phrase "my lawyer will be in touch" would make `check_guardrails` return
the forced Hold/Manual decision, yet `score_fraud` (like every live
endpoint) never invokes `check_guardrails`: with a low fraud probability it
returns the model-driven `uc7_policy` decision "Legitimate", not the
guardrail hold. -/
theorem guardrail_bypassed_in_fraud_endpoint :
    checkGuardrails (some "my lawyer will be in touch") (some [("case_id", "C123")]) =
      some ⟨"Hold/Manual", "guardrail:legal_threat:lawyer",
            "Legal threat detected - requires immediate manual review"⟩ ∧
    scoreFraud [("ocr_text_mismatch_rate", FType.tFloat), ("doc_hash_repeat", FType.tBool)]
        (fun _ => (9/10, 1/10))
        [("case_id", Value.vStr "C123"), ("doc_id", Value.vStr "D1"),
         ("ocr_text", Value.vStr "my lawyer will be in touch"),
         ("ocr_text_mismatch_rate", Value.vFloat 0)] =
      some ⟨"Legitimate", false, "Document appears legitimate"⟩ ∧
    "Legitimate" ≠ "Hold/Manual" := by
  refine ⟨rfl, ?_, by decide⟩
  have hex : extract
      [("ocr_text_mismatch_rate", FType.tFloat), ("doc_hash_repeat", FType.tBool)]
      [("case_id", Value.vStr "C123"), ("doc_id", Value.vStr "D1"),
       ("ocr_text", Value.vStr "my lawyer will be in touch"),
       ("ocr_text_mismatch_rate", Value.vFloat 0)] = some [0, 0] := rfl
  unfold scoreFraud
  rw [hex]
  simp only [Option.map_some]
  norm_num [uc7Policy, UC7_QUARANTINE_THRESHOLD]

end GPNet
